import Mathlib

/-!
Verification of the deduplicating file-store backend (`backend/server.js`,
with the document-store download variant for the download route).

The server state is the contents of `data/items.json` (the metadata array)
together with the files in the uploads directory (the blob store, modelled
as an association list from path to bytes).  The content digest
(`generateFileHash`, SHA-256 hex in the source) is kept as an explicit
function parameter `digest : Bytes → String`: every theorem quantifies over
it, and collision-freedom at the concrete inputs involved appears as an
explicit hypothesis where a claim needs it.
-/

namespace FileStore

/-- A byte sequence (the contents of an uploaded file). -/
abbrev Bytes := List Nat

/-- One entry of the metadata array `data/items.json` (the object built in
`app.post('/api/upload')` of `backend/server.js`).  `uploadDate` is the
`Date.now()` instant as a natural number (the ISO rendering is presentation
only); `id` is `Date.now().toString()`. -/
structure FileRecord where
  id : String
  filename : String
  savedFilename : String
  path : String
  size : Nat
  mimetype : String
  hash : String
  uploadDate : Nat
  description : String
deriving DecidableEq

/-- The uploads directory: an association list from file path to bytes.
Lookup takes the first entry with the key. -/
abbrev BlobStore := List (String × Bytes)

/-- A file being written into the uploads directory (multer writes the
uploaded payload to a fresh path before the route handler runs). -/
def blobPut (bs : BlobStore) (p : String) (b : Bytes) : BlobStore :=
  (p, b) :: bs

/-- Read of a path in the uploads directory (`fs.readFileSync`): `none` when no
file exists at that path. -/
def blobGet (bs : BlobStore) (p : String) : Option Bytes :=
  bs.lookup p

/-- Removal of a path (`fs.removeSync`, guarded by `fs.existsSync` in the source,
which is the same effect: afterwards no entry with that path remains). -/
def blobRemove (bs : BlobStore) (p : String) : BlobStore :=
  bs.filter (fun e => e.1 ≠ p)

/-- The whole persistent state of the server: the parsed metadata array and
the uploads directory. -/
structure ServerState where
  items : List FileRecord
  blobs : BlobStore
deriving DecidableEq

/-- State of a fresh deployment: empty metadata array, empty uploads
directory. -/
def initialState : ServerState := { items := [], blobs := [] }

/-- The uploaded file part (`req.file`) as produced by multer: original client filename, the
generated saved filename, the full saved path, the mimetype, and the
payload bytes (`req.file.size` is the byte count, so it is `bytes.length`
and not modelled separately). -/
structure UploadedFile where
  originalname : String
  filename : String
  tmpPath : String
  mimetype : String
  bytes : Bytes
deriving DecidableEq

/-- One POST `/api/upload` request: `file = none` models a request with no
file part (multer then writes nothing and `req.file` is undefined);
`replaceFlag` is `req.body.replace === 'true'`; `description` is
`req.body.description` with an absent field modelled as `""` (both are
falsy in the source's `||` defaulting); `now` is the value of `Date.now()`
during the handler. -/
structure UploadReq where
  file : Option UploadedFile
  replaceFlag : Bool
  description : String
  now : Nat
deriving DecidableEq

/-- The function `findDuplicateIndex` of `backend/server.js`: index of the first item
whose `hash` equals the uploaded file's hash.  The source returns `-1`
when absent; here `List.findIdx` returns `items.length` and the source's
`!== -1` test becomes a `< items.length` test. -/
def findDuplicateIndex (data : List FileRecord) (fileHash : String) : Nat :=
  data.findIdx (fun item => item.hash == fileHash)

/-- The record inserted on the no-duplicate path (`newItem` in the
source). -/
def newItemOf (f : UploadedFile) (now : Nat) (desc : String) (fileHash : String) :
    FileRecord :=
  { id := toString now
    filename := f.originalname
    savedFilename := f.filename
    path := f.tmpPath
    size := f.bytes.length
    mimetype := f.mimetype
    hash := fileHash
    uploadDate := now
    description := desc }

/-- The record written on the replace path
(`existingData[duplicateIndex] = { ...oldItem, ... }` in the source):
`id` and `hash` are kept from the old item, the file fields come from the
new upload, and `description` falls back to the old one when the supplied
one is empty (`req.body.description || oldItem.description`). -/
def replacedItemOf (oldItem : FileRecord) (f : UploadedFile) (now : Nat)
    (desc : String) : FileRecord :=
  { oldItem with
    filename := f.originalname
    savedFilename := f.filename
    path := f.tmpPath
    size := f.bytes.length
    mimetype := f.mimetype
    uploadDate := now
    description := if desc = "" then oldItem.description else desc }

/-- Outcome of POST `/api/upload`: 400 (no file), 201 with the new item,
200 with the replaced item, or 409 with only an error and message (the
duplicate-reject response carries no record). -/
inductive UploadOutcome where
  | noFile
  | created (item : FileRecord)
  | replaced (item : FileRecord)
  | duplicate
deriving DecidableEq

/-- The `item` field of the upload response body: present on the 201 and
200 responses, absent on the 400 and 409 responses. -/
def UploadOutcome.item : UploadOutcome → Option FileRecord
  | .created i => some i
  | .replaced i => some i
  | .noFile => none
  | .duplicate => none

/-- POST `/api/upload` of `backend/server.js`, including multer's prior
write of the payload to `req.file.path`: hash the payload, look for a
record with the same hash, and create, replace, or reject accordingly. -/
def upload (digest : Bytes → String) (s : ServerState) (req : UploadReq) :
    UploadOutcome × ServerState :=
  match req.file with
  | none => (.noFile, s)
  | some f =>
    let blobs1 := blobPut s.blobs f.tmpPath f.bytes
    let fileHash := digest f.bytes
    let existingData := s.items
    let duplicateIndex := findDuplicateIndex existingData fileHash
    if h : duplicateIndex < existingData.length then
      if req.replaceFlag then
        let oldItem := existingData.get ⟨duplicateIndex, h⟩
        let newItem := replacedItemOf oldItem f req.now req.description
        (.replaced newItem,
          { items := existingData.set duplicateIndex newItem
            blobs := blobRemove blobs1 oldItem.path })
      else
        (.duplicate, { s with blobs := blobRemove blobs1 f.tmpPath })
    else
      let newItem := newItemOf f req.now req.description fileHash
      (.created newItem,
        { items := existingData ++ [newItem], blobs := blobs1 })

/-- GET `/api/files`: the whole metadata array. -/
def listFiles (s : ServerState) : List FileRecord := s.items

/-- Outcome of GET `/api/files/:id`. -/
inductive GetOutcome where
  | notFound
  | ok (item : FileRecord)
deriving DecidableEq

/-- GET `/api/files/:id` of `backend/server.js`: first record with the
given id, 404 when absent. -/
def getFile (s : ServerState) (id : String) : GetOutcome :=
  match s.items.find? (fun item => item.id == id) with
  | none => .notFound
  | some item => .ok item

/-- Outcome of DELETE `/api/files/:id`. -/
inductive DeleteOutcome where
  | notFound
  | ok
deriving DecidableEq

/-- DELETE `/api/files/:id` of `backend/server.js`: find the first record
with the given id; 404 when absent, otherwise remove its file from the
uploads directory and splice it out of the array. -/
def deleteFile (s : ServerState) (id : String) : DeleteOutcome × ServerState :=
  let data := s.items
  let itemIndex := data.findIdx (fun item => item.id == id)
  if h : itemIndex < data.length then
    let item := data.get ⟨itemIndex, h⟩
    (.ok,
      { items := data.eraseIdx itemIndex
        blobs := blobRemove s.blobs item.path })
  else
    (.notFound, s)

/-- One client-visible operation against the store (the body-parsing layer
is outside the model). -/
inductive Op where
  | upload (req : UploadReq)
  | delete (id : String)

/-- Apply one operation, keeping only the state. -/
def applyOp (digest : Bytes → String) (s : ServerState) : Op → ServerState
  | .upload req => (upload digest s req).2
  | .delete id => (deleteFile s id).2

/-- Run a sequence of operations from a state. -/
def runOps (digest : Bytes → String) (s : ServerState) (ops : List Op) :
    ServerState :=
  ops.foldl (applyOp digest) s

/-- Run a sequence of upload requests, collecting the outcomes. -/
def runUploads (digest : Bytes → String) (s : ServerState) :
    List UploadReq → List UploadOutcome × ServerState
  | [] => ([], s)
  | r :: rs =>
    let res := upload digest s r
    let rest := runUploads digest res.2 rs
    (res.1 :: rest.1, rest.2)

/-- A concrete injective digest used to instantiate witnesses: the
decimal rendering of the byte list.  (The source's SHA-256 is
collision-free only cryptographically; witnesses use this exact stand-in
so that distinctness of digests is decidable.) -/
def sampleDigest (b : Bytes) : String := toString b

/-- The function `loadData` of `backend/server.js`: the metadata file's raw contents
when it exists (`none` = `fs.existsSync` false), parsed by the supplied
parse function (`none` = `JSON.parse` threw); any failure is caught and
the function returns the empty array. -/
def loadData (parse : String → Option (List FileRecord))
    (metaFile : Option String) : List FileRecord :=
  match metaFile with
  | none => []
  | some raw =>
    match parse raw with
    | some data => data
    | none => []

end FileStore

namespace MongoStore

/-!  The document-store variant that owns the download route: records hold
their payload inline (`data` field).  Records migrated from the old schema
may lack `data` (the source tolerates and transforms them in the list
route), modelled by an `Option`. -/

/-- A document of the `File` collection (the memory-storage variant's
schema, with `data : Option` to model old-schema documents that have no
inline payload). -/
structure MongoFileRecord where
  id : String
  filename : String
  originalName : String
  size : Nat
  mimetype : String
  data : Option FileStore.Bytes
  hash : String
  uploadDate : Nat
  description : String
deriving DecidableEq

/-- Outcome of GET `/api/files/:id/download`: 404, or a 200 response with
the content type and body bytes. -/
inductive DownloadOutcome where
  | notFound
  | ok (contentType : String) (body : FileStore.Bytes)
deriving DecidableEq

/-- GET `/api/files/:id/download` of the document-store variant: find the
document; 404 when absent, otherwise `res.send(file.data)` with the
record's mimetype — a missing `data` field is sent as an empty body
(`res.send(undefined)`), with no inconsistency check of any kind. -/
def downloadFile (store : List MongoFileRecord) (id : String) :
    DownloadOutcome :=
  match store.find? (fun f => f.id == id) with
  | none => .notFound
  | some f => .ok f.mimetype (f.data.getD [])

/-- Fixture: an old-schema document that is live in the collection but has
no inline payload. -/
def mongoOldRecord : MongoFileRecord :=
  { id := "abc", filename := "old.txt", originalName := "old.txt", size := 3,
    mimetype := "text/plain", data := none, hash := "h1", uploadDate := 0,
    description := "" }

end MongoStore

namespace FileStore

/-- Fixture: an upload of the two bytes `hi` (used to instantiate
witnesses at concrete inputs). -/
def fileHi : UploadedFile :=
  { originalname := "hello.txt", filename := "file-100", tmpPath := "uploads/file-100",
    mimetype := "text/plain", bytes := [104, 105] }

/-- Fixture: a second upload of the same two bytes, saved under a fresh
multer path. -/
def fileHi2 : UploadedFile :=
  { originalname := "hello-again.txt", filename := "file-200", tmpPath := "uploads/file-200",
    mimetype := "text/plain", bytes := [104, 105] }

/-- Fixture: an upload with different content. -/
def fileBye : UploadedFile :=
  { originalname := "bye.txt", filename := "file-300", tmpPath := "uploads/file-300",
    mimetype := "text/plain", bytes := [98] }

/-- Fixture: an upload whose file part is present but has zero bytes. -/
def fileEmpty : UploadedFile :=
  { originalname := "empty.txt", filename := "file-400", tmpPath := "uploads/file-400",
    mimetype := "text/plain", bytes := [] }

/-- Fixture request: first upload of the `hi` payload. -/
def reqHi : UploadReq :=
  { file := some fileHi, replaceFlag := false, description := "", now := 1 }

/-- Fixture request: second upload of the same payload with the default
reject policy. -/
def reqHi2 : UploadReq :=
  { file := some fileHi2, replaceFlag := false, description := "", now := 2 }

/-- Fixture request: re-upload of the same payload with
`replace === 'true'` and a new description. -/
def reqHiReplace : UploadReq :=
  { file := some fileHi2, replaceFlag := true, description := "v2", now := 3 }

/-- Fixture request: upload of different content at the same `Date.now()`
instant as `reqHi`. -/
def reqBye : UploadReq :=
  { file := some fileBye, replaceFlag := false, description := "", now := 1 }

/-- Fixture request: upload of different content at a later instant. -/
def reqBye2 : UploadReq :=
  { file := some fileBye, replaceFlag := false, description := "", now := 4 }

/-- Fixture request: upload with a zero-byte file part. -/
def reqEmpty : UploadReq :=
  { file := some fileEmpty, replaceFlag := false, description := "", now := 1 }

/-- Fixture request: upload with no file part at all. -/
def reqNoFile : UploadReq :=
  { file := none, replaceFlag := false, description := "", now := 1 }

/-- The reversed decimal digits of a natural number, least significant
first; this is the digit sequence that `Nat.toDigitsCore` at base 10
produces (it is used below to reason about the `Date.now().toString()`
record ids). -/
def decDigitsRev (n : Nat) : List Nat :=
  if _ : n < 10 then [n]
  else
    have : n / 10 < n := Nat.div_lt_self (by omega) (by omega)
    (n % 10) :: decDigitsRev (n / 10)

/-- Reassemble a number from its reversed decimal digits. -/
def ofRevDigits : List Nat → Nat
  | [] => 0
  | d :: ds => d + 10 * ofRevDigits ds

end FileStore

namespace FileStore

theorem ofRevDigits_decDigitsRev (n : Nat) : ofRevDigits (decDigitsRev n) = n := by
  induction n using Nat.strongRecOn with
  | ind n ih =>
    rw [decDigitsRev]
    split
    · simp [ofRevDigits]
    · rename_i h
      have hd : n / 10 < n := Nat.div_lt_self (by omega) (by omega)
      simp [ofRevDigits, ih _ hd]
      omega

theorem decDigitsRev_lt (n : Nat) : ∀ d ∈ decDigitsRev n, d < 10 := by
  induction n using Nat.strongRecOn with
  | ind n ih =>
    rw [decDigitsRev]
    split
    · rename_i h
      intro d hd
      simp at hd
      omega
    · rename_i h
      intro d hd
      rcases List.mem_cons.mp hd with rfl | hd
      · omega
      · exact ih _ (Nat.div_lt_self (by omega) (by omega)) d hd

theorem toDigitsCore_eq_digits :
    ∀ (fuel n : Nat) (ds : List Char), 0 < fuel → n < 10 ^ fuel →
      Nat.toDigitsCore 10 fuel n ds
        = ((decDigitsRev n).reverse.map Nat.digitChar) ++ ds := by
  intro fuel
  induction fuel with
  | zero => omega
  | succ f ih =>
    intro n ds _ hn
    by_cases h10 : n < 10
    · have hq : n / 10 = 0 := Nat.div_eq_of_lt h10
      have hm : n % 10 = n := Nat.mod_eq_of_lt h10
      rw [decDigitsRev]
      simp [Nat.toDigitsCore, hq, hm, h10]
    · have hq : ¬ n / 10 = 0 := by omega
      have hdivlt : n / 10 < 10 ^ f := by
        rw [Nat.div_lt_iff_lt_mul (by omega)]
        calc n < 10 ^ (f + 1) := hn
          _ = 10 ^ f * 10 := by rw [Nat.pow_succ]
      have hfpos : 0 < f := by
        rcases Nat.eq_zero_or_pos f with rfl | hf
        · simp at hdivlt
          omega
        · exact hf
      rw [decDigitsRev]
      simp only [Nat.toDigitsCore, hq, if_false, dif_neg h10]
      rw [ih (n / 10) (Nat.digitChar (n % 10) :: ds) hfpos hdivlt]
      simp

theorem natRepr_eq (n : Nat) :
    Nat.repr n = ((decDigitsRev n).reverse.map Nat.digitChar).asString := by
  have h2 : n < 10 ^ (n + 1) := by
    calc n < 2 ^ n := Nat.lt_two_pow n
      _ ≤ 10 ^ n := Nat.pow_le_pow_left (by omega) n
      _ ≤ 10 ^ (n + 1) := Nat.pow_le_pow_right (by omega) (by omega)
  unfold Nat.repr Nat.toDigits
  rw [toDigitsCore_eq_digits (n + 1) n [] (by omega) h2, List.append_nil]

theorem digitChar_inj_lt :
    ∀ a, a < 10 → ∀ b, b < 10 → Nat.digitChar a = Nat.digitChar b → a = b := by
  decide

theorem map_digitChar_inj :
    ∀ (l1 l2 : List Nat), (∀ d ∈ l1, d < 10) → (∀ d ∈ l2, d < 10) →
      l1.map Nat.digitChar = l2.map Nat.digitChar → l1 = l2 := by
  intro l1
  induction l1 with
  | nil =>
    intro l2 _ _ h
    cases l2 with
    | nil => rfl
    | cons b t2 => simp at h
  | cons a t1 ih =>
    intro l2 h1 h2 h
    cases l2 with
    | nil => simp at h
    | cons b t2 =>
      simp only [List.map_cons, List.cons.injEq] at h
      have ha : a = b :=
        digitChar_inj_lt a (h1 a (by simp)) b (h2 b (by simp)) h.1
      have ht : t1 = t2 :=
        ih t2 (fun d hd => h1 d (by simp [hd])) (fun d hd => h2 d (by simp [hd])) h.2
      rw [ha, ht]

theorem asString_inj {l1 l2 : List Char} (h : l1.asString = l2.asString) :
    l1 = l2 := by
  have := congrArg String.data h
  simpa [List.asString] using this

theorem natRepr_inj {m n : Nat} (h : Nat.repr m = Nat.repr n) : m = n := by
  rw [natRepr_eq, natRepr_eq] at h
  have h2 := asString_inj h
  have h3 : (decDigitsRev m).reverse = (decDigitsRev n).reverse :=
    map_digitChar_inj _ _
      (fun d hd => decDigitsRev_lt m d (List.mem_reverse.mp hd))
      (fun d hd => decDigitsRev_lt n d (List.mem_reverse.mp hd)) h2
  have h4 : decDigitsRev m = decDigitsRev n := List.reverse_inj.mp h3
  have h5 := congrArg ofRevDigits h4
  rwa [ofRevDigits_decDigitsRev, ofRevDigits_decDigitsRev] at h5

theorem natToString_inj {m n : Nat} (h : toString m = toString n) : m = n :=
  natRepr_inj h

theorem set_get_self (l : List FileRecord) (i : Nat) (h : i < l.length) :
    l.set i (l.get ⟨i, h⟩) = l := by
  induction l generalizing i with
  | nil => simp at h
  | cons a t ih =>
    cases i with
    | zero => simp
    | succ j =>
      have hj : j < t.length := by simpa using h
      show a :: t.set j (t.get ⟨j, hj⟩) = a :: t
      rw [ih j hj]

theorem eraseIdx_map_ne {α β : Type} (f : α → β) :
    ∀ (l : List α) (i : Nat) (h : i < l.length),
      (l.map f).Nodup → ∀ x ∈ l.eraseIdx i, f x ≠ f (l.get ⟨i, h⟩) := by
  intro l
  induction l with
  | nil =>
    intro i h
    simp at h
  | cons a t ih =>
    intro i h hnd x hx
    rw [List.map_cons, List.nodup_cons] at hnd
    cases i with
    | zero =>
      simp only [List.eraseIdx_cons_zero] at hx
      intro heq
      exact hnd.1 (heq ▸ List.mem_map_of_mem f hx)
    | succ j =>
      have hj : j < t.length := by simpa using h
      simp only [List.eraseIdx_cons_succ] at hx
      rcases List.mem_cons.mp hx with rfl | hx
      · intro heq
        apply hnd.1
        have hmem : f (t.get ⟨j, hj⟩) ∈ List.map f t :=
          List.mem_map_of_mem f (List.get_mem t j hj)
        have hgets : (x :: t).get ⟨j + 1, h⟩ = t.get ⟨j, hj⟩ := rfl
        rw [hgets] at heq
        exact heq ▸ hmem
      · exact ih j hj hnd.2 x hx

theorem blobGet_nil (p : String) : blobGet [] p = none := rfl

theorem filter_ne_of_lookup_none :
    ∀ (bs : BlobStore) (p : String), blobGet bs p = none →
      bs.filter (fun e => e.1 ≠ p) = bs := by
  intro bs
  induction bs with
  | nil => intro p _; rfl
  | cons e t ih =>
    intro p h
    obtain ⟨k, v⟩ := e
    by_cases hpk : p == k
    · simp [blobGet, List.lookup, hpk] at h
    · have h2 : blobGet t p = none := by
        simpa [blobGet, List.lookup, hpk] using h
      have hkp : ¬ (k = p) := by
        intro heq
        exact hpk (by simp [heq])
      rw [List.filter_cons, if_pos (by simpa using hkp), ih p h2]

theorem blobRemove_blobPut_self {bs : BlobStore} {p : String} {b : Bytes}
    (h : blobGet bs p = none) : blobRemove (blobPut bs p b) p = bs := by
  simp only [blobRemove, blobPut, List.filter_cons]
  rw [if_neg (by simp)]
  exact filter_ne_of_lookup_none bs p h

theorem upload_eq_noFile (digest : Bytes → String) (s : ServerState)
    (req : UploadReq) (h : req.file = none) :
    upload digest s req = (.noFile, s) := by
  simp [upload, h]

theorem findDuplicateIndex_not_lt {data : List FileRecord} {fileHash : String}
    (hno : ∀ x ∈ data, ¬ x.hash = fileHash) :
    ¬ findDuplicateIndex data fileHash < data.length := by
  simp only [findDuplicateIndex, List.findIdx_lt_length, not_exists]
  intro x
  simp only [not_and, beq_iff_eq]
  exact fun hx => hno x hx

theorem findDuplicateIndex_lt {data : List FileRecord} {fileHash : String}
    (hdup : ∃ x ∈ data, x.hash = fileHash) :
    findDuplicateIndex data fileHash < data.length := by
  simp only [findDuplicateIndex, List.findIdx_lt_length]
  rcases hdup with ⟨x, hx, hh⟩
  exact ⟨x, hx, by simp [hh]⟩

theorem upload_eq_created (digest : Bytes → String) (s : ServerState)
    (req : UploadReq) (f : UploadedFile) (hf : req.file = some f)
    (hno : ∀ x ∈ s.items, ¬ x.hash = digest f.bytes) :
    upload digest s req =
      (.created (newItemOf f req.now req.description (digest f.bytes)),
        { items := s.items ++ [newItemOf f req.now req.description (digest f.bytes)]
          blobs := blobPut s.blobs f.tmpPath f.bytes }) := by
  rw [upload, hf]
  simp only [dif_neg (findDuplicateIndex_not_lt hno)]

theorem upload_eq_duplicate (digest : Bytes → String) (s : ServerState)
    (req : UploadReq) (f : UploadedFile) (hf : req.file = some f)
    (hrep : req.replaceFlag = false)
    (hdup : ∃ x ∈ s.items, x.hash = digest f.bytes) :
    upload digest s req =
      (.duplicate,
        { s with blobs := blobRemove (blobPut s.blobs f.tmpPath f.bytes) f.tmpPath }) := by
  rw [upload, hf]
  simp only [dif_pos (findDuplicateIndex_lt hdup), hrep, if_neg]
  simp

theorem upload_eq_replaced (digest : Bytes → String) (s : ServerState)
    (req : UploadReq) (f : UploadedFile) (hf : req.file = some f)
    (hrep : req.replaceFlag = true)
    (h : findDuplicateIndex s.items (digest f.bytes) < s.items.length) :
    upload digest s req =
      (.replaced (replacedItemOf
          (s.items.get ⟨findDuplicateIndex s.items (digest f.bytes), h⟩)
          f req.now req.description),
        { items := s.items.set (findDuplicateIndex s.items (digest f.bytes))
            (replacedItemOf
              (s.items.get ⟨findDuplicateIndex s.items (digest f.bytes), h⟩)
              f req.now req.description)
          blobs := blobRemove (blobPut s.blobs f.tmpPath f.bytes)
            (s.items.get ⟨findDuplicateIndex s.items (digest f.bytes), h⟩).path }) := by
  rw [upload, hf]
  simp only [dif_pos h, hrep, if_pos]

theorem deleteFile_eq_ok (s : ServerState) (id : String)
    (h : s.items.findIdx (fun item => item.id == id) < s.items.length) :
    deleteFile s id =
      (.ok,
        { items := s.items.eraseIdx (s.items.findIdx (fun item => item.id == id))
          blobs := blobRemove s.blobs
            (s.items.get ⟨s.items.findIdx (fun item => item.id == id), h⟩).path }) := by
  rw [deleteFile]
  simp only [dif_pos h]

theorem deleteFile_eq_notFound (s : ServerState) (id : String)
    (h : ¬ s.items.findIdx (fun item => item.id == id) < s.items.length) :
    deleteFile s id = (.notFound, s) := by
  rw [deleteFile]
  simp only [dif_neg h]

theorem not_lt_findDuplicateIndex_forall {data : List FileRecord} {fileHash : String}
    (h : ¬ findDuplicateIndex data fileHash < data.length) :
    ∀ x ∈ data, ¬ x.hash = fileHash :=
  fun x hx heq => h (findDuplicateIndex_lt ⟨x, hx, heq⟩)

theorem lt_findDuplicateIndex_exists {data : List FileRecord} {fileHash : String}
    (h : findDuplicateIndex data fileHash < data.length) :
    ∃ x ∈ data, x.hash = fileHash := by
  simp only [findDuplicateIndex] at h
  rcases List.findIdx_lt_length.mp h with ⟨x, hx, hb⟩
  exact ⟨x, hx, by simpa using hb⟩

theorem map_hash_set_eq (l : List FileRecord) (i : Nat) (h : i < l.length)
    (a : FileRecord) (hh : a.hash = (l.get ⟨i, h⟩).hash) :
    (l.set i a).map (fun r => r.hash) = l.map (fun r => r.hash) := by
  induction l generalizing i with
  | nil => simp at h
  | cons x t ih =>
    cases i with
    | zero =>
      show a.hash :: t.map (fun r => r.hash) = x.hash :: t.map (fun r => r.hash)
      rw [hh]
      rfl
    | succ j =>
      have hj : j < t.length := by simpa using h
      show x.hash :: (t.set j a).map (fun r => r.hash)
          = x.hash :: t.map (fun r => r.hash)
      rw [ih j hj hh]

theorem nodup_append_singleton {l : List String} {a : String}
    (h : l.Nodup) (ha : a ∉ l) : (l ++ [a]).Nodup := by
  induction l with
  | nil => simp
  | cons x t ih =>
    rw [List.cons_append, List.nodup_cons]
    rw [List.nodup_cons] at h
    refine ⟨?_, ih h.2 (fun hmem => ha (List.mem_cons_of_mem x hmem))⟩
    intro hx
    rcases List.mem_append.mp hx with hx | hx
    · exact h.1 hx
    · have : x = a := by simpa using hx
      exact ha (this ▸ List.mem_cons_self x t)

theorem applyOp_hash_nodup (digest : Bytes → String) (s : ServerState) (op : Op)
    (h : (s.items.map (fun r => r.hash)).Nodup) :
    (((applyOp digest s op).items).map (fun r => r.hash)).Nodup := by
  cases op with
  | delete id =>
    show (((deleteFile s id).2.items).map (fun r => r.hash)).Nodup
    by_cases hi : s.items.findIdx (fun item => item.id == id) < s.items.length
    · rw [deleteFile_eq_ok s id hi]
      exact h.sublist (List.Sublist.map _ (List.eraseIdx_sublist _ _))
    · rw [deleteFile_eq_notFound s id hi]
      exact h
  | upload req =>
    show (((upload digest s req).2.items).map (fun r => r.hash)).Nodup
    cases hf : req.file with
    | none =>
      rw [upload_eq_noFile digest s req hf]
      exact h
    | some f =>
      by_cases hd : findDuplicateIndex s.items (digest f.bytes) < s.items.length
      · cases hr : req.replaceFlag with
        | true =>
          rw [upload_eq_replaced digest s req f hf hr hd]
          have hhash : (replacedItemOf
              (s.items.get ⟨findDuplicateIndex s.items (digest f.bytes), hd⟩)
              f req.now req.description).hash
              = (s.items.get ⟨findDuplicateIndex s.items (digest f.bytes), hd⟩).hash := rfl
          rw [map_hash_set_eq s.items _ hd _ hhash]
          exact h
        | false =>
          rw [upload_eq_duplicate digest s req f hf hr (lt_findDuplicateIndex_exists hd)]
          exact h
      · rw [upload_eq_created digest s req f hf (not_lt_findDuplicateIndex_forall hd)]
        show ((s.items ++ [newItemOf f req.now req.description (digest f.bytes)]).map
            (fun r => r.hash)).Nodup
        rw [List.map_append]
        apply nodup_append_singleton h
        intro hmem
        rcases List.mem_map.mp hmem with ⟨x, hx, hhx⟩
        exact not_lt_findDuplicateIndex_forall hd x hx hhx

theorem runOps_hash_nodup (digest : Bytes → String) :
    ∀ (ops : List Op) (s : ServerState),
      (s.items.map (fun r => r.hash)).Nodup →
      (((runOps digest s ops).items).map (fun r => r.hash)).Nodup := by
  intro ops
  induction ops with
  | nil => exact fun s h => h
  | cons o rest ih =>
    intro s h
    exact ih (applyOp digest s o) (applyOp_hash_nodup digest s o h)

theorem runUploads_all_duplicate (digest : Bytes → String) (b : Bytes) :
    ∀ (rs : List UploadReq) (s : ServerState),
      (∀ r ∈ rs, r.file.map (fun f => f.bytes) = some b ∧ r.replaceFlag = false) →
      (∃ x ∈ s.items, x.hash = digest b) →
      (runUploads digest s rs).1 = List.replicate rs.length .duplicate
        ∧ (runUploads digest s rs).2.items = s.items := by
  intro rs
  induction rs with
  | nil => exact fun s _ _ => ⟨rfl, rfl⟩
  | cons r rest ih =>
    intro s hall hex
    obtain ⟨hfb, hflag⟩ := hall r (List.mem_cons_self r rest)
    cases hf : r.file with
    | none =>
      rw [hf] at hfb
      simp at hfb
    | some f =>
      have hb : f.bytes = b := by
        rw [hf] at hfb
        simpa using hfb
      have hstep := upload_eq_duplicate digest s r f hf hflag (by rw [hb]; exact hex)
      have hs1 : (upload digest s r).1 = .duplicate := by rw [hstep]
      have hs2 : (upload digest s r).2.items = s.items := by rw [hstep]
      have hrest := ih (upload digest s r).2
        (fun q hq => hall q (List.mem_cons_of_mem r hq))
        (by rw [hs2]; exact hex)
      constructor
      · show (upload digest s r).1
            :: (runUploads digest (upload digest s r).2 rest).1
            = List.replicate (r :: rest).length UploadOutcome.duplicate
        rw [hs1, hrest.1]
        rfl
      · show (runUploads digest (upload digest s r).2 rest).2.items = s.items
        rw [hrest.2, hs2]

theorem set_append_length (l : List FileRecord) (a b : FileRecord) :
    (l ++ [a]).set l.length b = l ++ [b] := by
  induction l with
  | nil => rfl
  | cons x t ih =>
    show x :: (t ++ [a]).set t.length b = x :: (t ++ [b])
    rw [ih]

theorem blobGet_remove_other {bs : BlobStore} {p q : String} {b : Bytes}
    (h : p ≠ q) : blobGet (blobRemove ((p, b) :: bs) q) p = some b := by
  simp only [blobRemove, List.filter_cons]
  rw [if_pos (by simpa using h)]
  simp [blobGet, List.lookup]

end FileStore

namespace FileStore

/-- C2: at every state reachable from the empty store by any sequence of
upload (with either conflict policy) and delete operations, no two live
records carry the same fingerprint — the fingerprint-to-record mapping is
injective over live records. -/
theorem c2_fingerprint_injective (digest : Bytes → String) (ops : List Op) :
    ((runOps digest initialState ops).items).Pairwise
      (fun r1 r2 => r1.hash ≠ r2.hash) := by
  have h := runOps_hash_nodup digest ops initialState (by simp [initialState])
  rw [List.Nodup, List.pairwise_map] at h
  exact h

/-- C1: uploading the same payload `b` a positive number of times with the
reject policy, from a store with no record of `b`'s fingerprint, yields
one Created outcome first, Duplicate outcomes for every later request, and
leaves exactly one record with fingerprint `digest b` in the store. -/
theorem c1_dedup_idempotence (digest : Bytes → String) (b : Bytes)
    (reqs : List UploadReq) (s0 : ServerState)
    (hne : reqs ≠ [])
    (hall : ∀ r ∈ reqs, r.file.map (fun f => f.bytes) = some b
      ∧ r.replaceFlag = false)
    (hclean : ∀ x ∈ s0.items, ¬ x.hash = digest b) :
    (∃ item, item.hash = digest b ∧
      (runUploads digest s0 reqs).1
        = .created item :: List.replicate (reqs.length - 1) .duplicate)
    ∧ ((runUploads digest s0 reqs).2.items.countP
        (fun x => x.hash == digest b)) = 1 := by
  cases reqs with
  | nil => exact absurd rfl hne
  | cons r rest =>
    obtain ⟨hfb, hflag⟩ := hall r (List.mem_cons_self r rest)
    cases hf : r.file with
    | none =>
      rw [hf] at hfb
      simp at hfb
    | some f =>
      have hb : f.bytes = b := by
        rw [hf] at hfb
        simpa using hfb
      have hcreate := upload_eq_created digest s0 r f hf (by rw [hb]; exact hclean)
      have h1 : (upload digest s0 r).1
          = .created (newItemOf f r.now r.description (digest f.bytes)) := by
        rw [hcreate]
      have h2 : (upload digest s0 r).2.items
          = s0.items ++ [newItemOf f r.now r.description (digest f.bytes)] := by
        rw [hcreate]
      have hitemhash : (newItemOf f r.now r.description (digest f.bytes)).hash
          = digest b := by
        simp [newItemOf, hb]
      have hexist : ∃ x ∈ (upload digest s0 r).2.items, x.hash = digest b := by
        rw [h2]
        exact ⟨newItemOf f r.now r.description (digest f.bytes), by simp, hitemhash⟩
      have hrest := runUploads_all_duplicate digest b rest (upload digest s0 r).2
        (fun q hq => hall q (List.mem_cons_of_mem r hq)) hexist
      constructor
      · refine ⟨newItemOf f r.now r.description (digest f.bytes), hitemhash, ?_⟩
        show (upload digest s0 r).1
            :: (runUploads digest (upload digest s0 r).2 rest).1
            = .created (newItemOf f r.now r.description (digest f.bytes))
              :: List.replicate ((r :: rest).length - 1) UploadOutcome.duplicate
        rw [h1, hrest.1]
        simp
      · show ((runUploads digest (upload digest s0 r).2 rest).2.items.countP
            (fun x => x.hash == digest b)) = 1
        rw [hrest.2, h2, List.countP_append]
        have hz : s0.items.countP (fun x => x.hash == digest b) = 0 := by
          rw [List.countP_eq_zero]
          intro a ha
          simpa using hclean a ha
        rw [hz]
        simp [List.countP_cons, hitemhash]

/-- Witness for C1: two uploads of the bytes `[104, 105]` from the empty
store, with the reject policy, produce Created then Duplicate and exactly
one record with that fingerprint. -/
theorem c1_dedup_idempotence_witness :
    (∃ item, item.hash = sampleDigest [104, 105] ∧
      (runUploads sampleDigest initialState [reqHi, reqHi2]).1
        = .created item :: List.replicate 1 .duplicate)
    ∧ ((runUploads sampleDigest initialState [reqHi, reqHi2]).2.items.countP
        (fun x => x.hash == sampleDigest [104, 105])) = 1 :=
  c1_dedup_idempotence sampleDigest [104, 105] [reqHi, reqHi2] initialState
    (by decide) (by decide) (by decide)

/-- C3 counterexample: after creating a record for the `hi` payload, a
second upload of the same payload with the reject policy answers 409
Duplicate, but the response carries no record at all (its `item` field is
absent), so it does not return the existing FileRecord as the claim
states. -/
theorem c3_counterexample :
    (upload sampleDigest (upload sampleDigest initialState reqHi).2 reqHi2).1
      = .duplicate
    ∧ ((upload sampleDigest (upload sampleDigest initialState reqHi).2
        reqHi2).1).item = none := by
  decide

/-- C3 (amended): a duplicate upload under the reject policy yields the
Duplicate conflict outcome — distinguishable from Created and Replaced,
and carrying no record — and leaves the whole store (metadata array and
uploads directory) unchanged, provided the multer temp path of the request
is fresh. -/
theorem c3_amended_duplicate_reject (digest : Bytes → String) (s : ServerState)
    (req : UploadReq) (f : UploadedFile)
    (hf : req.file = some f) (hrep : req.replaceFlag = false)
    (hdup : ∃ x ∈ s.items, x.hash = digest f.bytes)
    (hfresh : blobGet s.blobs f.tmpPath = none) :
    (upload digest s req).1 = .duplicate
    ∧ ((upload digest s req).1).item = none
    ∧ (upload digest s req).2 = s := by
  have hstep := upload_eq_duplicate digest s req f hf hrep hdup
  refine ⟨by rw [hstep], by rw [hstep]; rfl, ?_⟩
  rw [hstep]
  show ({ s with
      blobs := blobRemove (blobPut s.blobs f.tmpPath f.bytes) f.tmpPath } : ServerState) = s
  rw [blobRemove_blobPut_self hfresh]

/-- Witness for the amended C3 at the `hi` fixture. -/
theorem c3_amended_duplicate_reject_witness :
    (upload sampleDigest (upload sampleDigest initialState reqHi).2 reqHi2).1
      = .duplicate
    ∧ ((upload sampleDigest (upload sampleDigest initialState reqHi).2
        reqHi2).1).item = none
    ∧ (upload sampleDigest (upload sampleDigest initialState reqHi).2 reqHi2).2
      = (upload sampleDigest initialState reqHi).2 :=
  c3_amended_duplicate_reject sampleDigest (upload sampleDigest initialState reqHi).2
    reqHi2 fileHi2 (by decide) (by decide)
    ⟨newItemOf fileHi 1 "" (sampleDigest [104, 105]), by decide, by decide⟩
    (by decide)

/-- C4: a record created by an upload and then hit by a second upload with
the same fingerprint and `replace === 'true'` keeps its id and
fingerprint, has its uploadDate set to the replacement instant, and
reading the bytes at the record's stored path returns the newly uploaded
bytes; the replaced record sits where the old one did. -/
theorem c4_replace_preserves_identity (digest : Bytes → String)
    (s0 : ServerState) (req1 req2 : UploadReq) (f1 f2 : UploadedFile)
    (hf1 : req1.file = some f1) (hf2 : req2.file = some f2)
    (hclean : ∀ x ∈ s0.items, ¬ x.hash = digest f1.bytes)
    (hsame : digest f2.bytes = digest f1.bytes)
    (hrep2 : req2.replaceFlag = true)
    (hpath : f2.tmpPath ≠ f1.tmpPath) :
    (upload digest s0 req1).1
      = .created (newItemOf f1 req1.now req1.description (digest f1.bytes))
    ∧ (upload digest (upload digest s0 req1).2 req2).1
      = .replaced (replacedItemOf
          (newItemOf f1 req1.now req1.description (digest f1.bytes))
          f2 req2.now req2.description)
    ∧ (replacedItemOf (newItemOf f1 req1.now req1.description (digest f1.bytes))
        f2 req2.now req2.description).id
      = (newItemOf f1 req1.now req1.description (digest f1.bytes)).id
    ∧ (replacedItemOf (newItemOf f1 req1.now req1.description (digest f1.bytes))
        f2 req2.now req2.description).hash
      = (newItemOf f1 req1.now req1.description (digest f1.bytes)).hash
    ∧ (replacedItemOf (newItemOf f1 req1.now req1.description (digest f1.bytes))
        f2 req2.now req2.description).uploadDate = req2.now
    ∧ blobGet (upload digest (upload digest s0 req1).2 req2).2.blobs
        (replacedItemOf (newItemOf f1 req1.now req1.description (digest f1.bytes))
          f2 req2.now req2.description).path
      = some f2.bytes
    ∧ (upload digest (upload digest s0 req1).2 req2).2.items
      = s0.items ++ [replacedItemOf
          (newItemOf f1 req1.now req1.description (digest f1.bytes))
          f2 req2.now req2.description] := by
  have hcreate := upload_eq_created digest s0 req1 f1 hf1 hclean
  rw [hcreate]
  refine ⟨rfl, ?_⟩
  have hs1 :
      ((UploadOutcome.created (newItemOf f1 req1.now req1.description (digest f1.bytes)),
        ({ items := s0.items ++ [newItemOf f1 req1.now req1.description (digest f1.bytes)]
           blobs := blobPut s0.blobs f1.tmpPath f1.bytes } : ServerState)) :
        UploadOutcome × ServerState).2
      = { items := s0.items ++ [newItemOf f1 req1.now req1.description (digest f1.bytes)]
          blobs := blobPut s0.blobs f1.tmpPath f1.bytes } := rfl
  rw [hs1]
  have hlt : findDuplicateIndex
      (s0.items ++ [newItemOf f1 req1.now req1.description (digest f1.bytes)])
      (digest f2.bytes)
      < (s0.items ++ [newItemOf f1 req1.now req1.description (digest f1.bytes)]).length := by
    apply findDuplicateIndex_lt
    exact ⟨newItemOf f1 req1.now req1.description (digest f1.bytes), by simp,
      by simp [newItemOf, hsame]⟩
  have hidx : findDuplicateIndex
      (s0.items ++ [newItemOf f1 req1.now req1.description (digest f1.bytes)])
      (digest f2.bytes) = s0.items.length := by
    rw [hsame, findDuplicateIndex, List.findIdx_append]
    have hnone : s0.items.findIdx (fun item => item.hash == digest f1.bytes)
        = s0.items.length :=
      List.findIdx_eq_length_of_false (fun x hx => by simpa using hclean x hx)
    rw [if_neg (by omega)]
    have hone : ([newItemOf f1 req1.now req1.description (digest f1.bytes)].findIdx
        (fun item => item.hash == digest f1.bytes)) = 0 := by
      simp [List.findIdx_cons, newItemOf]
    rw [hone]
    omega
  have hold : (s0.items ++ [newItemOf f1 req1.now req1.description (digest f1.bytes)]).get
      ⟨findDuplicateIndex
        (s0.items ++ [newItemOf f1 req1.now req1.description (digest f1.bytes)])
        (digest f2.bytes), hlt⟩
      = newItemOf f1 req1.now req1.description (digest f1.bytes) := by
    have hmem := List.get_mem
      (s0.items ++ [newItemOf f1 req1.now req1.description (digest f1.bytes)]) _ hlt
    have hph : ((s0.items ++ [newItemOf f1 req1.now req1.description
        (digest f1.bytes)]).get
        ⟨findDuplicateIndex
          (s0.items ++ [newItemOf f1 req1.now req1.description (digest f1.bytes)])
          (digest f2.bytes), hlt⟩).hash = digest f2.bytes := by
      have h2 : List.findIdx (fun item => item.hash == digest f2.bytes)
          (s0.items ++ [newItemOf f1 req1.now req1.description (digest f1.bytes)])
          < (s0.items ++ [newItemOf f1 req1.now req1.description
              (digest f1.bytes)]).length := hlt
      have := List.findIdx_getElem (w := h2)
      simpa using this
    rcases List.mem_append.mp hmem with hm | hm
    · exact absurd (hph.trans hsame) (hclean _ hm)
    · simpa using hm
  rw [upload_eq_replaced digest _ req2 f2 hf2 hrep2 hlt, hold, hidx]
  refine ⟨rfl, rfl, rfl, rfl, ?_, ?_⟩
  · show blobGet (blobRemove
        ((f2.tmpPath, f2.bytes) :: (f1.tmpPath, f1.bytes) :: s0.blobs)
        (newItemOf f1 req1.now req1.description (digest f1.bytes)).path)
        (replacedItemOf (newItemOf f1 req1.now req1.description (digest f1.bytes))
          f2 req2.now req2.description).path
      = some f2.bytes
    exact blobGet_remove_other hpath
  · show (s0.items ++ [newItemOf f1 req1.now req1.description (digest f1.bytes)]).set
        s0.items.length
        (replacedItemOf (newItemOf f1 req1.now req1.description (digest f1.bytes))
          f2 req2.now req2.description)
      = s0.items ++ [replacedItemOf
          (newItemOf f1 req1.now req1.description (digest f1.bytes))
          f2 req2.now req2.description]
    exact set_append_length s0.items _ _

/-- Witness for C4: create the `hi` record, then replace it with the same
payload under a fresh path and description `v2`. -/
theorem c4_replace_preserves_identity_witness :
    (upload sampleDigest initialState reqHi).1
      = .created (newItemOf fileHi 1 "" (sampleDigest [104, 105]))
    ∧ (upload sampleDigest (upload sampleDigest initialState reqHi).2 reqHiReplace).1
      = .replaced (replacedItemOf (newItemOf fileHi 1 "" (sampleDigest [104, 105]))
          fileHi2 3 "v2")
    ∧ (replacedItemOf (newItemOf fileHi 1 "" (sampleDigest [104, 105]))
        fileHi2 3 "v2").id
      = (newItemOf fileHi 1 "" (sampleDigest [104, 105])).id
    ∧ (replacedItemOf (newItemOf fileHi 1 "" (sampleDigest [104, 105]))
        fileHi2 3 "v2").hash
      = (newItemOf fileHi 1 "" (sampleDigest [104, 105])).hash
    ∧ (replacedItemOf (newItemOf fileHi 1 "" (sampleDigest [104, 105]))
        fileHi2 3 "v2").uploadDate = 3
    ∧ blobGet (upload sampleDigest (upload sampleDigest initialState reqHi).2
          reqHiReplace).2.blobs
        (replacedItemOf (newItemOf fileHi 1 "" (sampleDigest [104, 105]))
          fileHi2 3 "v2").path
      = some [104, 105]
    ∧ (upload sampleDigest (upload sampleDigest initialState reqHi).2
        reqHiReplace).2.items
      = initialState.items ++ [replacedItemOf
          (newItemOf fileHi 1 "" (sampleDigest [104, 105])) fileHi2 3 "v2"] :=
  c4_replace_preserves_identity sampleDigest initialState reqHi reqHiReplace
    fileHi fileHi2 (by decide) (by decide) (by decide) (by decide) (by decide)
    (by decide)

/-- C5 counterexample: two uploads of distinct content (distinct
fingerprints) processed at the same `Date.now()` millisecond both succeed
as Created but receive the SAME id, because ids are
`Date.now().toString()`; the claim's "distinct ids" part fails. -/
theorem c5_counterexample :
    (upload sampleDigest initialState reqHi).1
      = .created (newItemOf fileHi 1 "" (sampleDigest [104, 105]))
    ∧ (upload sampleDigest (upload sampleDigest initialState reqHi).2 reqBye).1
      = .created (newItemOf fileBye 1 "" (sampleDigest [98]))
    ∧ (newItemOf fileHi 1 "" (sampleDigest [104, 105])).hash
      ≠ (newItemOf fileBye 1 "" (sampleDigest [98])).hash
    ∧ (newItemOf fileHi 1 "" (sampleDigest [104, 105])).id
      = (newItemOf fileBye 1 "" (sampleDigest [98])).id := by
  decide

/-- C5 (amended): two uploads of payloads with distinct fingerprints both
succeed as Created with two records of distinct fingerprints, and their
ids are distinct provided the two requests observe different `Date.now()`
values (ids are the millisecond timestamp rendered as a string). -/
theorem c5_amended_no_cross_contamination (digest : Bytes → String)
    (s0 : ServerState) (req1 req2 : UploadReq) (f1 f2 : UploadedFile)
    (hf1 : req1.file = some f1) (hf2 : req2.file = some f2)
    (hclean1 : ∀ x ∈ s0.items, ¬ x.hash = digest f1.bytes)
    (hclean2 : ∀ x ∈ s0.items, ¬ x.hash = digest f2.bytes)
    (hdiff : digest f1.bytes ≠ digest f2.bytes)
    (hnow : req1.now ≠ req2.now) :
    (upload digest s0 req1).1
      = .created (newItemOf f1 req1.now req1.description (digest f1.bytes))
    ∧ (upload digest (upload digest s0 req1).2 req2).1
      = .created (newItemOf f2 req2.now req2.description (digest f2.bytes))
    ∧ (newItemOf f1 req1.now req1.description (digest f1.bytes)).hash
      ≠ (newItemOf f2 req2.now req2.description (digest f2.bytes)).hash
    ∧ (newItemOf f1 req1.now req1.description (digest f1.bytes)).id
      ≠ (newItemOf f2 req2.now req2.description (digest f2.bytes)).id := by
  have hc1 := upload_eq_created digest s0 req1 f1 hf1 hclean1
  rw [hc1]
  have hclean2' : ∀ x ∈ s0.items
      ++ [newItemOf f1 req1.now req1.description (digest f1.bytes)],
      ¬ x.hash = digest f2.bytes := by
    intro x hx
    rcases List.mem_append.mp hx with hm | hm
    · exact hclean2 x hm
    · have hxeq : x = newItemOf f1 req1.now req1.description (digest f1.bytes) := by
        simpa using hm
      rw [hxeq]
      exact hdiff
  have hc2 := upload_eq_created digest
    { items := s0.items ++ [newItemOf f1 req1.now req1.description (digest f1.bytes)]
      blobs := blobPut s0.blobs f1.tmpPath f1.bytes }
    req2 f2 hf2 hclean2'
  refine ⟨rfl, ?_, hdiff, ?_⟩
  · show (upload digest
        { items := s0.items ++ [newItemOf f1 req1.now req1.description (digest f1.bytes)]
          blobs := blobPut s0.blobs f1.tmpPath f1.bytes } req2).1
      = .created (newItemOf f2 req2.now req2.description (digest f2.bytes))
    rw [hc2]
  · exact fun hid => hnow (natToString_inj hid)

/-- Witness for the amended C5: `hi` at instant 1 and `bye` at instant 4
produce two Created records with distinct fingerprints and distinct ids. -/
theorem c5_amended_no_cross_contamination_witness :
    (upload sampleDigest initialState reqHi).1
      = .created (newItemOf fileHi 1 "" (sampleDigest [104, 105]))
    ∧ (upload sampleDigest (upload sampleDigest initialState reqHi).2 reqBye2).1
      = .created (newItemOf fileBye 4 "" (sampleDigest [98]))
    ∧ (newItemOf fileHi 1 "" (sampleDigest [104, 105])).hash
      ≠ (newItemOf fileBye 4 "" (sampleDigest [98])).hash
    ∧ (newItemOf fileHi 1 "" (sampleDigest [104, 105])).id
      ≠ (newItemOf fileBye 4 "" (sampleDigest [98])).id :=
  c5_amended_no_cross_contamination sampleDigest initialState reqHi reqBye2
    fileHi fileBye (by decide) (by decide) (by decide) (by decide) (by decide)
    (by decide)

/-- C6 counterexample: an upload whose file part is present but holds zero
bytes is NOT rejected: it is hashed and stored as a new record (outcome
Created, index mutated), where the claim requires an InvalidInput failure
with no mutation. -/
theorem c6_counterexample :
    (upload sampleDigest initialState reqEmpty).1
      = .created (newItemOf fileEmpty 1 "" (sampleDigest []))
    ∧ (upload sampleDigest initialState reqEmpty).2.items ≠ [] := by
  decide

/-- C6 (amended): an upload with no file part fails as InvalidInput (400)
with no index or blob mutation; a present but zero-byte payload is not
rejected — it is processed like any other content. -/
theorem c6_amended_invalid_input (digest : Bytes → String) (s : ServerState)
    (req : UploadReq) :
    (req.file = none → upload digest s req = (.noFile, s))
    ∧ (∀ f, req.file = some f → (upload digest s req).1 ≠ .noFile) := by
  constructor
  · exact fun h => upload_eq_noFile digest s req h
  · intro f hf
    by_cases hd : findDuplicateIndex s.items (digest f.bytes) < s.items.length
    · cases hr : req.replaceFlag with
      | true =>
        rw [upload_eq_replaced digest s req f hf hr hd]
        simp
      | false =>
        rw [upload_eq_duplicate digest s req f hf hr
          (lt_findDuplicateIndex_exists hd)]
        simp
    · rw [upload_eq_created digest s req f hf (not_lt_findDuplicateIndex_forall hd)]
      simp

/-- Witness for the amended C6: a file-less request is rejected without
mutation, and a zero-byte upload is not answered with the no-file error. -/
theorem c6_amended_invalid_input_witness :
    upload sampleDigest initialState reqNoFile = (.noFile, initialState)
    ∧ (upload sampleDigest initialState reqEmpty).1 ≠ .noFile :=
  ⟨(c6_amended_invalid_input sampleDigest initialState reqNoFile).1 rfl,
   (c6_amended_invalid_input sampleDigest initialState reqEmpty).2 fileEmpty rfl⟩

/-- C7 counterexample: after two same-instant uploads of distinct content
(both records get id "1"), deleting id "1" succeeds but removes only the
first record, and a subsequent get of id "1" still succeeds instead of
failing NotFound. -/
theorem c7_counterexample :
    (deleteFile (upload sampleDigest (upload sampleDigest initialState reqHi).2
        reqBye).2 "1").1 = .ok
    ∧ getFile (deleteFile (upload sampleDigest (upload sampleDigest initialState
        reqHi).2 reqBye).2 "1").2 "1" ≠ .notFound := by
  decide

/-- C7 (amended): provided no two live records share an id (which holds
whenever record creation instants are distinct, ids being the creation
timestamp), a successful delete is terminal: a subsequent get of the id
fails NotFound, a subsequent delete of the id fails NotFound, and no
record with the id remains in the listing. -/
theorem c7_amended_delete_terminal (s : ServerState) (idv : String)
    (hnd : (s.items.map (fun r => r.id)).Nodup)
    (hdel : (deleteFile s idv).1 = .ok) :
    getFile (deleteFile s idv).2 idv = .notFound
    ∧ (deleteFile (deleteFile s idv).2 idv).1 = .notFound
    ∧ ∀ x ∈ listFiles (deleteFile s idv).2, x.id ≠ idv := by
  by_cases h : s.items.findIdx (fun item => item.id == idv) < s.items.length
  · have hstate : (deleteFile s idv).2 =
        { items := s.items.eraseIdx (s.items.findIdx (fun item => item.id == idv))
          blobs := blobRemove s.blobs
            (s.items.get ⟨s.items.findIdx (fun item => item.id == idv), h⟩).path } := by
      rw [deleteFile_eq_ok s idv h]
    have hid : (s.items.get ⟨s.items.findIdx (fun item => item.id == idv), h⟩).id
        = idv := by
      have := List.findIdx_getElem (w := h)
      simpa using this
    have hnone : ∀ x ∈ s.items.eraseIdx (s.items.findIdx (fun item => item.id == idv)),
        x.id ≠ idv := by
      intro x hx
      have hne := eraseIdx_map_ne (fun r => r.id) s.items _ h hnd x hx
      simp only at hne
      rw [hid] at hne
      exact hne
    have hmiss : ¬ (s.items.eraseIdx
        (s.items.findIdx (fun item => item.id == idv))).findIdx
          (fun item => item.id == idv)
        < (s.items.eraseIdx (s.items.findIdx (fun item => item.id == idv))).length := by
      rw [List.findIdx_eq_length_of_false
        (fun x hx => by simpa using hnone x hx)]
      omega
    refine ⟨?_, ?_, ?_⟩
    · rw [hstate]
      unfold getFile
      rw [List.find?_eq_none.mpr (fun x hx => by simpa using hnone x hx)]
    · rw [hstate]
      rw [deleteFile_eq_notFound _ idv hmiss]
    · rw [hstate]
      intro x hx
      exact hnone x (by simpa [listFiles] using hx)
  · rw [deleteFile_eq_notFound s idv h] at hdel
    simp at hdel

/-- Witness for the amended C7: delete the single `hi` record. -/
theorem c7_amended_delete_terminal_witness :
    getFile (deleteFile (upload sampleDigest initialState reqHi).2 "1").2 "1"
      = .notFound
    ∧ (deleteFile (deleteFile (upload sampleDigest initialState reqHi).2 "1").2
        "1").1 = .notFound
    ∧ ∀ x ∈ listFiles (deleteFile (upload sampleDigest initialState reqHi).2 "1").2,
        x.id ≠ "1" :=
  c7_amended_delete_terminal (upload sampleDigest initialState reqHi).2 "1"
    (by decide) (by decide)

/-- C9: on the replace path the stored record's description is the
caller-supplied one when it is non-empty and the prior description
otherwise; the response carries the very record that is stored. -/
theorem c9_replace_description (digest : Bytes → String) (s : ServerState)
    (req : UploadReq) (f : UploadedFile)
    (hf : req.file = some f) (hrep : req.replaceFlag = true)
    (h : findDuplicateIndex s.items (digest f.bytes) < s.items.length) :
    (upload digest s req).1
      = .replaced (replacedItemOf
          (s.items.get ⟨findDuplicateIndex s.items (digest f.bytes), h⟩)
          f req.now req.description)
    ∧ (upload digest s req).2.items
      = s.items.set (findDuplicateIndex s.items (digest f.bytes))
          (replacedItemOf
            (s.items.get ⟨findDuplicateIndex s.items (digest f.bytes), h⟩)
            f req.now req.description)
    ∧ (replacedItemOf
        (s.items.get ⟨findDuplicateIndex s.items (digest f.bytes), h⟩)
        f req.now req.description).description
      = (if req.description = ""
          then (s.items.get
            ⟨findDuplicateIndex s.items (digest f.bytes), h⟩).description
          else req.description) := by
  have hstep := upload_eq_replaced digest s req f hf hrep h
  exact ⟨by rw [hstep], by rw [hstep], rfl⟩

/-- Witness for C9: replacing the `hi` record with description "v2" stores
and returns description "v2". -/
theorem c9_replace_description_witness :
    (upload sampleDigest (upload sampleDigest initialState reqHi).2 reqHiReplace).1
      = .replaced (replacedItemOf (newItemOf fileHi 1 "" (sampleDigest [104, 105]))
          fileHi2 3 "v2")
    ∧ (upload sampleDigest (upload sampleDigest initialState reqHi).2
        reqHiReplace).2.items
      = [replacedItemOf (newItemOf fileHi 1 "" (sampleDigest [104, 105]))
          fileHi2 3 "v2"]
    ∧ (replacedItemOf (newItemOf fileHi 1 "" (sampleDigest [104, 105]))
        fileHi2 3 "v2").description = "v2" :=
  c9_replace_description sampleDigest (upload sampleDigest initialState reqHi).2
    reqHiReplace fileHi2 (by decide) (by decide) (by decide)

/-- C10: when the metadata file is absent or its contents fail to parse,
loadData returns the empty array, so the list route answers with the empty
sequence and every upload behaves exactly as on an empty store — the prior
index contents are silently discarded, not surfaced as a failure. -/
theorem c10_load_failure_empty (parse : String → Option (List FileRecord))
    (metaFile : Option String) (bl : BlobStore) (digest : Bytes → String)
    (h : metaFile = none ∨ ∃ raw, metaFile = some raw ∧ parse raw = none) :
    loadData parse metaFile = []
    ∧ listFiles { items := loadData parse metaFile, blobs := bl } = []
    ∧ ∀ req, upload digest { items := loadData parse metaFile, blobs := bl } req
        = upload digest { items := [], blobs := bl } req := by
  have hl : loadData parse metaFile = [] := by
    rcases h with rfl | ⟨raw, rfl, hp⟩
    · rfl
    · simp [loadData, hp]
  refine ⟨hl, ?_, ?_⟩
  · show listFiles { items := loadData parse metaFile, blobs := bl } = []
    simp [listFiles, hl]
  · intro req
    rw [hl]

/-- Witness for C10 at a metadata file whose contents do not parse. -/
theorem c10_load_failure_empty_witness :
    loadData (fun _ => none) (some "not-json") = []
    ∧ listFiles
        { items := loadData (fun _ => none) (some "not-json"), blobs := ([] : BlobStore) }
      = []
    ∧ ∀ req, upload sampleDigest
        { items := loadData (fun _ => none) (some "not-json"), blobs := ([] : BlobStore) }
        req
        = upload sampleDigest { items := [], blobs := ([] : BlobStore) } req :=
  c10_load_failure_empty (fun _ => none) (some "not-json") [] sampleDigest
    (Or.inr ⟨"not-json", rfl, rfl⟩)

end FileStore

namespace MongoStore

/-- C8 counterexample: a live record with no inline payload is downloaded
as a 200 success with an empty body — the route does not fail with any
StorageInconsistency outcome, contrary to the claim. -/
theorem c8_counterexample :
    downloadFile [mongoOldRecord] "abc" = .ok "text/plain" [] := by
  decide

/-- C8 (amended): for a live record whose payload field is absent, the
download route succeeds with the record's content type and an empty body;
no StorageInconsistency failure path exists in the code. -/
theorem c8_amended_missing_data_empty_body
    (store : List MongoFileRecord) (idv : String) (f : MongoFileRecord)
    (hfind : store.find? (fun r => r.id == idv) = some f)
    (hdata : f.data = none) :
    downloadFile store idv = .ok f.mimetype [] := by
  unfold downloadFile
  rw [hfind]
  simp [hdata]

/-- Witness for the amended C8 at the old-schema fixture record. -/
theorem c8_amended_missing_data_empty_body_witness :
    downloadFile [mongoOldRecord] "abc" = .ok mongoOldRecord.mimetype [] :=
  c8_amended_missing_data_empty_body [mongoOldRecord] "abc" mongoOldRecord
    (by decide) rfl

end MongoStore
